import Mathlib

/-!
Verification development for the TmuxManager terminal-multiplexer core
(`server` component of the Mobile-cursor repository).

JavaScript strings are modelled as `List Char` (one entry per UTF-16 code
unit; all inputs of interest are ASCII).  JavaScript `Map` objects are
modelled as total functions with an `Option` codomain.  Functions that
`throw` are modelled with `Except` / plain returns according to the source.
-/

namespace TmuxMgr

/-- JavaScript strings, modelled as lists of characters. -/
abbrev Str := List Char

/-- Characters admitted by the regex class `[a-zA-Z0-9_-]` used in
`generateSessionName`, identical to the session-name grammar class
`[A-Za-z0-9_-]`. -/
def isSessionChar (c : Char) : Bool :=
  (97 ≤ c.toNat && c.toNat ≤ 122) ||   -- a-z
  (65 ≤ c.toNat && c.toNat ≤ 90) ||    -- A-Z
  (48 ≤ c.toNat && c.toNat ≤ 57) ||    -- 0-9
  c = '_' || c = '-'

/-- ASCII decimal digit test (`0`-`9`). -/
def isDigitChar (c : Char) : Bool :=
  48 ≤ c.toNat && c.toNat ≤ 57

/-- The decimal digit character for `n < 10` (junk for larger `n`). -/
def digitChar (n : Nat) : Char :=
  match n with
  | 0 => '0' | 1 => '1' | 2 => '2' | 3 => '3' | 4 => '4'
  | 5 => '5' | 6 => '6' | 7 => '7' | 8 => '8' | 9 => '9'
  | _ => '*'

/-- Fuel-driven body of `natToChars`; the fuel only makes the recursion
structural and never runs out when it starts at least `n + 1`. -/
def natToCharsAux : Nat → Nat → Str
  | 0, _ => []
  | fuel + 1, n =>
    if n < 10 then [digitChar n]
    else natToCharsAux fuel (n / 10) ++ [digitChar (n % 10)]

/-- Decimal rendering of a natural number, as JavaScript string
interpolation `${n}` renders a non-negative integer. -/
def natToChars (n : Nat) : Str := natToCharsAux (n + 1) n

/-- Accumulator-style decimal evaluation of a digit string. -/
def parseDigits (acc : Nat) : Str → Nat
  | [] => acc
  | c :: cs => parseDigits (10 * acc + (c.toNat - 48)) cs

/-- Whitespace skipped by JavaScript `parseInt` (the ASCII part, which is
all that the inputs of interest can contain). -/
def isJsWhitespace (c : Char) : Bool :=
  c = ' ' || c = '\t' || c = '\n' || c = '\r'

/-- Longest decimal-digit prefix, evaluated; `none` when there is no
leading digit (JavaScript `NaN`). -/
def parsePrefixNat (s : Str) : Option Nat :=
  let ds := s.takeWhile isDigitChar
  if ds = [] then none else some (parseDigits 0 ds)

/-- JavaScript `parseInt(s, 10)`: skip leading whitespace, optional sign,
then the longest digit prefix; `none` models `NaN`. -/
def jsParseInt (s : Str) : Option Int :=
  let s1 := s.dropWhile isJsWhitespace
  match s1 with
  | [] => none
  | c :: rest =>
    if c = '-' then (parsePrefixNat rest).map (fun n => -(n : Int))
    else if c = '+' then (parsePrefixNat rest).map (fun n => (n : Int))
    else (parsePrefixNat s1).map (fun n => (n : Int))

/-- `s.startsWith(p)` on JavaScript strings. -/
def strStartsWith (s p : Str) : Bool :=
  match p with
  | [] => true
  | c :: ps =>
    match s with
    | [] => false
    | d :: cs => if d = c then strStartsWith cs ps else false

/-- `hay.includes(needle)` on JavaScript strings. -/
def strIncludes (hay needle : Str) : Bool :=
  if strStartsWith hay needle then true
  else
    match hay with
    | [] => false
    | _ :: rest => strIncludes rest needle

/-- `s.lastIndexOf(c)`; `none` models the JavaScript result `-1`. -/
def lastIndexOf (c : Char) : Str → Option Nat
  | [] => none
  | x :: xs =>
    match lastIndexOf c xs with
    | some k => some (k + 1)
    | none => if x = c then some 0 else none

/-- The string `"tmux-"`: the terminal-ID namespace of `buildTerminalId`. -/
def tmuxTag : Str := "tmux-".data

/-- The string `"mobile-"`: the fixed session-name namespace of
`generateSessionName`. -/
def mobileTag : Str := "mobile-".data

/-- `TmuxManager.buildTerminalId(sessionName, windowIndex)`:
`` `tmux-${sessionName}:${windowIndex}` ``. -/
def buildTerminalId (sessionName : Str) (windowIndex : Nat) : Str :=
  tmuxTag ++ sessionName ++ ':' :: natToChars windowIndex

/-- `TmuxManager.isTmuxTerminal(terminalId)`:
`terminalId && terminalId.startsWith('tmux-')` (an empty string is falsy). -/
def isTmuxTerminal (terminalId : Str) : Bool :=
  !(terminalId = ([] : Str)) && strStartsWith terminalId tmuxTag

/-- Result record of `parseTerminalId`; `windowIndex = none` models the
`NaN` that `parseInt` can produce. -/
structure ParsedId where
  sessionName : Str
  windowIndex : Option Int
deriving DecidableEq

/-- `TmuxManager.parseTerminalId(terminalId)`: throws unless the ID starts
with `tmux-`; strips the 5-character tag; splits at the last `:`; a missing
colon is the legacy format, treated as window `0`. -/
def parseTerminalId (terminalId : Str) : Option ParsedId :=
  if isTmuxTerminal terminalId then
    let rest := terminalId.drop 5
    match lastIndexOf ':' rest with
    | none => some ⟨rest, some 0⟩
    | some k => some ⟨rest.take k, jsParseInt (rest.drop (k + 1))⟩
  else none

/-- Node `path.basename` (posix): strip trailing `/` separators, then keep
the final component. -/
def basename (p : Str) : Str :=
  ((p.reverse.dropWhile (fun c => c = '/')).takeWhile (fun c => c ≠ '/')).reverse

/-- The replacement `.replace(/[^a-zA-Z0-9_-]/g, '-')` applies per
character. -/
def sanitizeChar (c : Char) : Char :=
  if isSessionChar c then c else '-'

/-- `TmuxManager.generateSessionName(projectPath)`:
`'mobile-' + basename(projectPath).replace(/[^a-zA-Z0-9_-]/g,'-').substring(0, 30)`. -/
def generateSessionName (projectPath : Str) : Str :=
  mobileTag ++ ((basename projectPath).map sanitizeChar).take 30

/-- `TmuxManager.getWindowKey(sessionName, windowIndex)`:
`` `${sessionName}:${windowIndex}` ``. -/
def getWindowKey (sessionName : Str) (windowIndex : Nat) : Str :=
  sessionName ++ ':' :: natToChars windowIndex

/-- `this.maxBufferSize = 64 * 1024` from the `TmuxManager` constructor. -/
def maxBufferSize : Nat := 64 * 1024

/-- The `outputBuffers` map; a missing key reads as `''` via
`this.outputBuffers.get(windowKey) || ''`, so the map is modelled total. -/
abbrev Buffers := Str → Str

/-- The freshly constructed `outputBuffers` map (empty). -/
def emptyBuffers : Buffers := fun _ => []

/-- JavaScript `s.slice(-n)` for `n > 0`: the last `min n s.length`
characters. -/
def jsSliceLast (n : Nat) (l : Str) : Str := l.drop (l.length - n)

/-- The per-key computation inside `TmuxManager.appendToBuffer`:
`buffer += data; if (buffer.length > this.maxBufferSize) buffer =
buffer.slice(-this.maxBufferSize)`. -/
def appendOne (b data : Str) : Str :=
  if maxBufferSize < (b ++ data).length then jsSliceLast maxBufferSize (b ++ data)
  else b ++ data

/-- `TmuxManager.appendToBuffer(windowKey, data)` as a map update. -/
def appendToBuffer (bufs : Buffers) (windowKey data : Str) : Buffers :=
  fun k => if k = windowKey then appendOne (bufs windowKey) data else bufs k

/-- `TmuxManager.getBuffer(sessionName, windowIndex)`. -/
def getBuffer (bufs : Buffers) (sessionName : Str) (windowIndex : Nat) : Str :=
  bufs (getWindowKey sessionName windowIndex)

/-- A sequence of `appendToBuffer` calls, oldest first. -/
def applyAppends (ops : List (Str × Str)) (bufs : Buffers) : Buffers :=
  ops.foldl (fun b op => appendToBuffer b op.1 op.2) bufs

/-- State touched by the `ptyProcess.onData` callback installed in
`attachToWindow`: the window's handler set (handlers modelled by
identifiers) and its output buffer. -/
structure WindowAttachState where
  handlers : List Nat
  buffer : Str
deriving DecidableEq

/-- The `for (const handler of handlers)` loop of the `onData` callback:
every handler in the snapshot is called once with the chunk;
`beh h data = true` means handler `h` throws on `data`, which is caught by
the `try`/`catch` and only logged, so iteration continues with the next
handler. -/
def runHandlers (beh : Nat → Str → Bool) (hs : List Nat) (data : Str) :
    List (Nat × Bool) :=
  hs.map fun h => (h, beh h data)

/-- The whole `onData` callback: append the chunk to the output buffer,
then fan it out to the handler set; returns the new state and the call
log `(handler, threw?)`.  No branch removes a handler. -/
def onDataDispatch (beh : Nat → Str → Bool) (st : WindowAttachState)
    (data : Str) : WindowAttachState × List (Nat × Bool) :=
  (⟨st.handlers, appendOne st.buffer data⟩, runHandlers beh st.handlers data)

/-- External-world facts observed by `getOrCreateSession` through
`execSync`/`fs`: tmux availability, the session list at the existence
check, whether the working directory exists, and the outcome of
`tmux new-session` (`none` = success, `some msg` = the thrown message). -/
structure TmuxEnv where
  tmuxAvailable : Bool
  sessions : List Str
  cwdExists : Bool
  createError : Option Str

/-- `TmuxManager.sessionExists(sessionName)` against the listed sessions. -/
def sessionExists (env : TmuxEnv) (name : Str) : Bool :=
  env.sessions.contains name

/-- `TmuxManager.getOrCreateSession(projectPath)`: returns
`(sessionName, isNew)` or the thrown error message. -/
def getOrCreateSession (env : TmuxEnv) (projectPath : Str) :
    Except Str (Str × Bool) :=
  if !env.tmuxAvailable then
    .error "tmux is not installed or not available in PATH".data
  else
    let sessionName := generateSessionName projectPath
    if sessionExists env sessionName then .ok (sessionName, false)
    else if !env.cwdExists then
      .error "Working directory does not exist".data
    else
      match env.createError with
      | none => .ok (sessionName, true)
      | some msg =>
        if strIncludes msg "duplicate session".data then
          .ok (sessionName, false)
        else .error ("Failed to create tmux session: ".data ++ msg)

/-- One record of the `attachedWindows` map: the spawned PTY (by id) and
the recorded viewport. -/
structure AttachedWindow where
  ptyId : Nat
  cols : Int
  rows : Int
deriving DecidableEq

/-- JavaScript `Map`s keyed by window key. -/
abbrev KeyMap (α : Type) := Str → Option α

/-- `Map.set`. -/
def setK {α : Type} (m : KeyMap α) (k : Str) (v : α) : KeyMap α :=
  fun q => if q = k then some v else m q

/-- `Map.delete`. -/
def delK {α : Type} (m : KeyMap α) (k : Str) : KeyMap α :=
  fun q => if q = k then none else m q

/-- The mutable state of a `TmuxManager` instance relevant to
attach/detach/resize, plus observation logs for the external PTY layer:
`ptyWrites` records every `ptyProcess.write` (pty id, bytes),
`killedPtys` every `ptyProcess.kill`, and `detachTimers` the pending
`setTimeout` callbacks scheduled by `detachFromWindow` (window key and the
captured pty id). -/
structure MgrState where
  attachedWindows : KeyMap AttachedWindow
  outputHandlers : KeyMap (List Nat)
  outputBuffers : KeyMap Str
  nextPty : Nat
  ptyWrites : List (Nat × Str)
  killedPtys : List Nat
  detachTimers : List (Str × Nat)

/-- External-world facts observed by `attachToWindow`: tmux availability,
`sessionExists`, and whether `listWindows` contains the window index. -/
structure AttachEnv where
  tmuxAvailable : Bool
  sessionFound : Bool
  windowFound : Bool

/-- JavaScript `v || d` on numbers (`0` is falsy; negative numbers are
truthy), with `none` for an absent option field. -/
def jsOrNum (v : Option Int) (d : Int) : Int :=
  match v with
  | none => d
  | some x => if x = 0 then d else x

/-- `TmuxManager.attachToWindow(sessionName, windowIndex, options)`.
If the window key is already attached, the existing record is returned
and nothing changes.  Otherwise `pty.spawn` (modelled by consuming
`nextPty`) creates the attach PTY and the three maps gain the key, the
handler set and buffer starting empty. -/
def attachToWindow (env : AttachEnv) (st : MgrState) (sessionName : Str)
    (windowIndex : Nat) (optCols optRows : Option Int) :
    Except Str (MgrState × AttachedWindow) :=
  if !env.tmuxAvailable then .error "tmux is not installed".data
  else if !env.sessionFound then
    .error ("Session ".data ++ sessionName ++ " not found".data)
  else if !env.windowFound then
    .error ("Window ".data ++ natToChars windowIndex ++ " not found".data)
  else
    let windowKey := getWindowKey sessionName windowIndex
    match st.attachedWindows windowKey with
    | some existing => .ok (st, existing)
    | none =>
      let cols := jsOrNum optCols 80
      let rows := jsOrNum optRows 24
      let attached : AttachedWindow := ⟨st.nextPty, cols, rows⟩
      .ok ({ st with
              attachedWindows := setK st.attachedWindows windowKey attached,
              outputHandlers := setK st.outputHandlers windowKey [],
              outputBuffers := setK st.outputBuffers windowKey [],
              nextPty := st.nextPty + 1 }, attached)

/-- `TmuxManager.detachFromWindow(sessionName, windowIndex)`: if the key
is not attached, only a log line is printed; otherwise `'\x02' + 'd'` is
written to the attach PTY and a 500 ms `setTimeout` callback is scheduled
(capturing the attachment record); the map entry is only removed when that
callback later runs. -/
def detachFromWindow (st : MgrState) (sessionName : Str)
    (windowIndex : Nat) : MgrState :=
  let windowKey := getWindowKey sessionName windowIndex
  match st.attachedWindows windowKey with
  | none => st
  | some attached =>
    { st with
        ptyWrites := st.ptyWrites ++ [(attached.ptyId, ['\x02', 'd'])],
        detachTimers := st.detachTimers ++ [(windowKey, attached.ptyId)] }

/-- Running one pending `setTimeout` callback scheduled by
`detachFromWindow`: if the window key is still attached, kill the captured
PTY and delete the map entry. -/
def fireDetachTimer (st : MgrState) (t : Str × Nat) : MgrState :=
  if t ∈ st.detachTimers then
    let st1 := { st with detachTimers := st.detachTimers.erase t }
    match st1.attachedWindows t.1 with
    | none => st1
    | some _ =>
      { st1 with
          killedPtys := st1.killedPtys ++ [t.2],
          attachedWindows := delK st1.attachedWindows t.1 }
  else st

/-- `TmuxManager.resizeWindow(sessionName, windowIndex, cols, rows)`:
throws when not attached; otherwise forwards the dimensions to
`ptyProcess.resize` and records them verbatim — the source performs no
validation of `cols`/`rows`. -/
def resizeWindow (st : MgrState) (sessionName : Str) (windowIndex : Nat)
    (cols rows : Int) : Except Str MgrState :=
  let windowKey := getWindowKey sessionName windowIndex
  match st.attachedWindows windowKey with
  | none => .error ("Not attached to ".data ++ windowKey)
  | some attached =>
    .ok { st with
            attachedWindows := setK st.attachedWindows windowKey
              { attached with cols := cols, rows := rows } }

/-- A concrete manager state with window `s:0` attached (pty id 5),
used by the concrete counterexamples and witnesses below. -/
def demoMgr : MgrState :=
  { attachedWindows := setK (fun _ => none) (getWindowKey "s".data 0) ⟨5, 80, 24⟩,
    outputHandlers := setK (fun _ => none) (getWindowKey "s".data 0) [],
    outputBuffers := setK (fun _ => none) (getWindowKey "s".data 0) [],
    nextPty := 6,
    ptyWrites := [],
    killedPtys := [],
    detachTimers := [] }

/-! ## Helper lemmas -/

theorem strStartsWith_append (pre rest : Str) :
    strStartsWith (pre ++ rest) pre = true := by
  induction pre with
  | nil => simp [strStartsWith]
  | cons c ps ih => simp [strStartsWith, ih]

theorem lastIndexOf_eq_none {c : Char} {l : Str} (h : ∀ x ∈ l, x ≠ c) :
    lastIndexOf c l = none := by
  induction l with
  | nil => rfl
  | cons x xs ih =>
    have hx : x ≠ c := h x (by simp)
    have ht : lastIndexOf c xs = none := ih fun y hy => h y (by simp [hy])
    simp [lastIndexOf, ht, hx]

theorem lastIndexOf_append_cons {c : Char} (s : Str) {ds : Str}
    (h : ∀ x ∈ ds, x ≠ c) :
    lastIndexOf c (s ++ c :: ds) = some s.length := by
  induction s with
  | nil => simp [lastIndexOf, lastIndexOf_eq_none h]
  | cons a s ih => simp [lastIndexOf, ih]

theorem digitChar_toNat {m : Nat} (h : m < 10) :
    (digitChar m).toNat = 48 + m := by
  interval_cases m <;> decide

theorem isDigitChar_digitChar {m : Nat} (h : m < 10) :
    isDigitChar (digitChar m) = true := by
  interval_cases m <;> decide

theorem natToCharsAux_congr :
    ∀ f₁ f₂ n : Nat, n < f₁ → n < f₂ →
      natToCharsAux f₁ n = natToCharsAux f₂ n := by
  intro f₁
  induction f₁ with
  | zero => intro f₂ n h1 _; omega
  | succ f ih =>
    intro f₂ n h1 h2
    cases f₂ with
    | zero => omega
    | succ g =>
      simp only [natToCharsAux]
      split
      · rfl
      · have hdiv : n / 10 < n := Nat.div_lt_self (by omega) (by omega)
        rw [ih g (n / 10) (by omega) (by omega)]

theorem natToChars_eq (n : Nat) :
    natToChars n =
      if n < 10 then [digitChar n]
      else natToChars (n / 10) ++ [digitChar (n % 10)] := by
  show natToCharsAux (n + 1) n = _
  simp only [natToCharsAux]
  split
  · rfl
  · have hdiv : n / 10 < n := Nat.div_lt_self (by omega) (by omega)
    rw [natToCharsAux_congr n (n / 10 + 1) (n / 10) (by omega) (by omega)]
    rfl

theorem natToChars_ne_nil (n : Nat) : natToChars n ≠ [] := by
  rw [natToChars_eq]
  split <;> simp

theorem natToChars_digits (n : Nat) :
    ∀ c ∈ natToChars n, isDigitChar c = true := by
  induction n using Nat.strong_induction_on with
  | _ n ih =>
    rw [natToChars_eq]
    split
    case isTrue h =>
      intro c hc
      simp only [List.mem_singleton] at hc
      subst hc
      exact isDigitChar_digitChar h
    case isFalse h =>
      intro c hc
      rcases List.mem_append.mp hc with hl | hr
      · exact ih (n / 10) (Nat.div_lt_self (by omega) (by omega)) c hl
      · simp only [List.mem_singleton] at hr
        subst hr
        exact isDigitChar_digitChar (Nat.mod_lt _ (by omega))

theorem parseDigits_append (l : Str) (c : Char) :
    ∀ acc, parseDigits acc (l ++ [c]) = 10 * parseDigits acc l + (c.toNat - 48) := by
  induction l with
  | nil => intro acc; rfl
  | cons d ds ih =>
    intro acc
    rw [List.cons_append]
    show parseDigits (10 * acc + (d.toNat - 48)) (ds ++ [c]) = _
    rw [ih]
    rfl

theorem parseDigits_natToChars (n : Nat) :
    ∀ acc, parseDigits acc (natToChars n) = acc * 10 ^ (natToChars n).length + n := by
  induction n using Nat.strong_induction_on with
  | _ n ih =>
    intro acc
    rw [natToChars_eq]
    split
    case isTrue h =>
      show 10 * acc + ((digitChar n).toNat - 48)
          = acc * 10 ^ ([digitChar n]).length + n
      rw [digitChar_toNat h, List.length_singleton, pow_one]
      omega
    case isFalse h =>
      rw [parseDigits_append,
        ih (n / 10) (Nat.div_lt_self (by omega) (by omega)) acc,
        digitChar_toNat (Nat.mod_lt _ (by omega))]
      have h2 : 48 + n % 10 - 48 = n % 10 := by omega
      rw [h2, List.length_append, List.length_singleton]
      have hdm : 10 * (n / 10) + n % 10 = n := Nat.div_add_mod n 10
      have hpow : (10 : Nat) ^ ((natToChars (n / 10)).length + 1)
          = 10 ^ (natToChars (n / 10)).length * 10 := pow_succ 10 _
      rw [hpow]
      calc 10 * (acc * 10 ^ (natToChars (n / 10)).length + n / 10) + n % 10
          = acc * (10 ^ (natToChars (n / 10)).length * 10)
            + (10 * (n / 10) + n % 10) := by ring
        _ = acc * (10 ^ (natToChars (n / 10)).length * 10) + n := by rw [hdm]

theorem jsParseInt_natToChars (n : Nat) :
    jsParseInt (natToChars n) = some (n : Int) := by
  obtain ⟨d, rest, hcons⟩ : ∃ d rest, natToChars n = d :: rest := by
    cases h : natToChars n with
    | nil => exact absurd h (natToChars_ne_nil n)
    | cons d r => exact ⟨d, r, rfl⟩
  have hall := natToChars_digits n
  have hd : isDigitChar d = true := hall d (by rw [hcons]; simp)
  have hdn : 48 ≤ d.toNat ∧ d.toNat ≤ 57 := by
    simpa [isDigitChar, Bool.and_eq_true, decide_eq_true_iff] using hd
  have hw : isJsWhitespace d = false := by
    simp only [isJsWhitespace, Bool.or_eq_false_iff, decide_eq_false_iff_not]
    refine ⟨⟨⟨?_, ?_⟩, ?_⟩, ?_⟩ <;>
      (intro heq; subst heq; exact absurd hdn.1 (by decide))
  have hne1 : ¬ d = '-' := by
    intro heq; subst heq; exact absurd hdn.1 (by decide)
  have hne2 : ¬ d = '+' := by
    intro heq; subst heq; exact absurd hdn.1 (by decide)
  have hself : (d :: rest).takeWhile isDigitChar = d :: rest := by
    rw [← hcons]
    exact List.takeWhile_eq_self_iff.mpr hall
  simp only [jsParseInt, hcons, List.dropWhile_cons, hw, Bool.false_eq_true,
    if_false, if_neg hne1, if_neg hne2]
  simp only [parsePrefixNat, hself]
  rw [if_neg (by simp)]
  have := parseDigits_natToChars n 0
  rw [hcons] at this
  simp only [Nat.zero_mul, Nat.zero_add] at this
  simp [this]

theorem sanitizeChar_isSessionChar (c : Char) :
    isSessionChar (sanitizeChar c) = true := by
  unfold sanitizeChar
  split
  case isTrue h => exact h
  case isFalse h => decide

/-! ## Claim theorems: ID scheme and session naming -/

/-- C1: for every session name `s` over `[A-Za-z0-9_-]` and every window
index `i`, `parseTerminalId (buildTerminalId s i)` recovers exactly
`{sessionName := s, windowIndex := i}`. -/
theorem parseTerminalId_buildTerminalId (s : Str) (i : Nat)
    (hs : ∀ c ∈ s, isSessionChar c = true) :
    parseTerminalId (buildTerminalId s i) = some ⟨s, some (i : Int)⟩ := by
  have hds : ∀ x ∈ natToChars i, x ≠ ':' := by
    intro x hx heq
    have hdig := natToChars_digits i x hx
    subst heq
    exact absurd hdig (by decide)
  have hs' : ∀ x ∈ s, x ≠ ':' := by
    intro x hx heq
    have hses := hs x hx
    subst heq
    exact absurd hses (by decide)
  have hb : buildTerminalId s i = tmuxTag ++ (s ++ ':' :: natToChars i) := rfl
  have hne : tmuxTag ++ (s ++ ':' :: natToChars i) ≠ [] := by simp [tmuxTag]
  have hsw : strStartsWith (tmuxTag ++ (s ++ ':' :: natToChars i)) tmuxTag = true :=
    strStartsWith_append _ _
  have htm : isTmuxTerminal (buildTerminalId s i) = true := by
    rw [hb]
    unfold isTmuxTerminal
    rw [hsw, Bool.and_true]
    simp [hne]
  simp only [parseTerminalId, htm, if_true]
  have hdrop : (buildTerminalId s i).drop 5 = s ++ ':' :: natToChars i := by
    rw [hb]
    exact List.drop_left' (by rfl)
  rw [hdrop, lastIndexOf_append_cons s hds]
  have htake : (s ++ ':' :: natToChars i).take s.length = s := List.take_left s _
  have hdrop2 : (s ++ ':' :: natToChars i).drop (s.length + 1) = natToChars i := by
    have hsplit : s ++ ':' :: natToChars i = (s ++ [':']) ++ natToChars i := by simp
    rw [hsplit]
    exact List.drop_left' (by simp)
  simp only [htake, hdrop2, jsParseInt_natToChars]

/-- Witness for C1 at a concrete session name and index. -/
theorem parseTerminalId_buildTerminalId_witness :
    parseTerminalId (buildTerminalId "mobile-proj".data 12)
      = some ⟨"mobile-proj".data, some 12⟩ :=
  parseTerminalId_buildTerminalId "mobile-proj".data 12 (by decide)

/-- C8: a terminal ID `tmux-` ++ `rest` with no colon in `rest` parses
without raising to `{sessionName := rest, windowIndex := 0}` (legacy IDs
are silently treated as window 0). -/
theorem parseTerminalId_legacy (rest : Str) (h : ∀ x ∈ rest, x ≠ ':') :
    parseTerminalId (tmuxTag ++ rest) = some ⟨rest, some 0⟩ := by
  have hne : tmuxTag ++ rest ≠ [] := by simp [tmuxTag]
  have hsw : strStartsWith (tmuxTag ++ rest) tmuxTag = true :=
    strStartsWith_append _ _
  have htm : isTmuxTerminal (tmuxTag ++ rest) = true := by
    unfold isTmuxTerminal
    rw [hsw, Bool.and_true]
    simp [hne]
  simp only [parseTerminalId, htm, if_true]
  have hdrop : (tmuxTag ++ rest).drop 5 = rest := List.drop_left' (by rfl)
  rw [hdrop, lastIndexOf_eq_none h]

/-- Witness for C8 at a concrete legacy ID. -/
theorem parseTerminalId_legacy_witness :
    parseTerminalId (tmuxTag ++ "mobile-myproj".data)
      = some ⟨"mobile-myproj".data, some 0⟩ :=
  parseTerminalId_legacy "mobile-myproj".data (by decide)

/-- C2 counterexample: at `projectPath = "/"` the basename is empty, so
the derived session name is exactly `"mobile-"` and the part after the
prefix is empty — its length is 0, violating the claimed grammar
`[A-Za-z0-9_-]{1,30}`. -/
theorem generateSessionName_slash_violates_grammar :
    generateSessionName "/".data = mobileTag ∧
    ¬ 1 ≤ ((generateSessionName "/".data).drop 7).length := by decide

/-- C2 (amended): the session name equals `"mobile-"` followed by the
sanitized basename truncated to 30 characters; the part after the prefix
always matches `[A-Za-z0-9_-]{0,30}`, and matches `[A-Za-z0-9_-]{1,30}`
whenever the final path component is nonempty. -/
theorem generateSessionName_grammar (p : Str) :
    generateSessionName p = mobileTag ++ ((basename p).map sanitizeChar).take 30 ∧
    (∀ c ∈ (generateSessionName p).drop 7, isSessionChar c = true) ∧
    ((generateSessionName p).drop 7).length ≤ 30 ∧
    (basename p ≠ [] → 1 ≤ ((generateSessionName p).drop 7).length) := by
  have hdrop : (generateSessionName p).drop 7
      = ((basename p).map sanitizeChar).take 30 :=
    List.drop_left' (by rfl)
  refine ⟨rfl, ?_, ?_, ?_⟩
  · rw [hdrop]
    intro c hc
    have hmem : c ∈ (basename p).map sanitizeChar := List.take_subset _ _ hc
    obtain ⟨c', _, hc'⟩ := List.mem_map.mp hmem
    rw [← hc']
    exact sanitizeChar_isSessionChar c'
  · rw [hdrop, List.length_take]
    exact Nat.min_le_left _ _
  · intro hb
    rw [hdrop, List.length_take, List.length_map]
    have hpos : 0 < (basename p).length := List.length_pos.mpr hb
    omega

/-- Witness for C2 (amended) at a concrete path with a nonempty, dirty
basename. -/
theorem generateSessionName_grammar_witness :
    1 ≤ ((generateSessionName "/home/u/My Proj!".data).drop 7).length :=
  (generateSessionName_grammar "/home/u/My Proj!".data).2.2.2 (by decide)

/-! ## Scrollback buffer lemmas -/

theorem appendOne_length_le (b data : Str) :
    (appendOne b data).length ≤ maxBufferSize := by
  unfold appendOne jsSliceLast
  split
  case isTrue h => rw [List.length_drop]; omega
  case isFalse h => omega

theorem applyAppends_length_le (ops : List (Str × Str)) :
    ∀ bufs : Buffers, (∀ k, (bufs k).length ≤ maxBufferSize) →
      ∀ k, (applyAppends ops bufs k).length ≤ maxBufferSize := by
  induction ops with
  | nil => intro bufs h k; exact h k
  | cons op rest ih =>
    intro bufs h k
    show (applyAppends rest (appendToBuffer bufs op.1 op.2) k).length ≤ _
    refine ih _ ?_ k
    intro q
    by_cases hq : q = op.1
    · simp only [appendToBuffer, hq, if_pos rfl]
      exact appendOne_length_le _ _
    · simp only [appendToBuffer, if_neg hq]
      exact h q

theorem length_jsSliceLast (n : Nat) (l : Str) :
    (jsSliceLast n l).length = l.length - (l.length - n) := by
  simp [jsSliceLast, List.length_drop]

theorem jsSliceLast_append_jsSliceLast (n : Nat) (s d : Str) :
    jsSliceLast n (jsSliceLast n s ++ d) = jsSliceLast n (s ++ d) := by
  unfold jsSliceLast
  rw [← List.drop_append_of_le_length (show s.length - n ≤ s.length by omega)]
  rw [List.drop_drop]
  congr 1
  simp only [List.length_drop, List.length_append]
  omega

theorem appendOne_jsSliceLast (s d : Str) :
    appendOne (jsSliceLast maxBufferSize s) d = jsSliceLast maxBufferSize (s ++ d) := by
  unfold appendOne
  split
  case isTrue h => exact jsSliceLast_append_jsSliceLast _ _ _
  case isFalse h =>
    simp only [not_lt, List.length_append, length_jsSliceLast] at h
    show jsSliceLast maxBufferSize s ++ d = jsSliceLast maxBufferSize (s ++ d)
    unfold jsSliceLast
    rw [← List.drop_append_of_le_length
      (show s.length - maxBufferSize ≤ s.length by omega)]
    have hamt : s.length - maxBufferSize = (s ++ d).length - maxBufferSize := by
      simp only [List.length_append]
      omega
    rw [hamt]

theorem foldl_appendOne_jsSliceLast (chunks : List Str) :
    ∀ s : Str, chunks.foldl appendOne (jsSliceLast maxBufferSize s)
      = jsSliceLast maxBufferSize (s ++ chunks.flatten) := by
  induction chunks with
  | nil =>
    intro s
    rw [List.foldl_nil, List.flatten_nil, List.append_nil]
  | cons d rest ih =>
    intro s
    rw [List.foldl_cons, appendOne_jsSliceLast, ih (s ++ d),
      List.flatten_cons, List.append_assoc]

theorem appendToBuffer_self (bufs : Buffers) (key data : Str) :
    appendToBuffer bufs key data key = appendOne (bufs key) data := by
  simp [appendToBuffer]

theorem applyAppends_fixed_key (key : Str) (chunks : List Str) :
    ∀ bufs : Buffers,
      applyAppends (chunks.map fun c => (key, c)) bufs key
        = chunks.foldl appendOne (bufs key) := by
  induction chunks with
  | nil => intro bufs; rfl
  | cons c rest ih =>
    intro bufs
    calc applyAppends ((c :: rest).map fun q => (key, q)) bufs key
        = applyAppends (rest.map fun q => (key, q))
            (appendToBuffer bufs key c) key := rfl
      _ = List.foldl appendOne (appendToBuffer bufs key c key) rest := ih _
      _ = List.foldl appendOne (appendOne (bufs key) c) rest := by
            rw [appendToBuffer_self]
      _ = List.foldl appendOne (bufs key) (c :: rest) := rfl

/-- A single chunk larger than the 64 KiB cap, used to exhibit mid-chunk
truncation. -/
def bigChunk : Str := List.replicate 70000 'a'

theorem bigChunk_length : bigChunk.length = 70000 := by
  rw [bigChunk]
  exact List.length_replicate _ _

theorem bigChunk_buffer_length :
    (getBuffer
      (applyAppends ([bigChunk].map fun c => (getWindowKey "s".data 0, c))
        emptyBuffers)
      "s".data 0).length = 65536 := by
  have h1 : getBuffer
      (applyAppends ([bigChunk].map fun c => (getWindowKey "s".data 0, c))
        emptyBuffers) "s".data 0
      = List.foldl appendOne (emptyBuffers (getWindowKey "s".data 0)) [bigChunk] :=
    applyAppends_fixed_key _ [bigChunk] emptyBuffers
  rw [h1, List.foldl_cons, List.foldl_nil]
  have h2 : emptyBuffers (getWindowKey "s".data 0) = [] := rfl
  rw [h2]
  unfold appendOne
  rw [List.nil_append,
    if_pos (show maxBufferSize < bigChunk.length by
      rw [bigChunk_length]; norm_num [maxBufferSize]),
    length_jsSliceLast, bigChunk_length]
  norm_num [maxBufferSize]

/-! ## Claim theorems: scrollback -/

/-- C3: the scrollback cap is 65536 = 64 KiB, and after any sequence of
`appendToBuffer` calls starting from the empty buffer map, `getBuffer`
returns at most that many characters for every window. -/
theorem scrollback_bounded :
    maxBufferSize = 65536 ∧
    ∀ (ops : List (Str × Str)) (sessionName : Str) (windowIndex : Nat),
      (getBuffer (applyAppends ops emptyBuffers) sessionName windowIndex).length
        ≤ maxBufferSize := by
  refine ⟨rfl, ?_⟩
  intro ops s w
  exact applyAppends_length_le ops emptyBuffers
    (fun k => by simp [emptyBuffers]) _

/-- C4 counterexample: one appended chunk of 70000 bytes leaves a 65536
byte buffer, which is the concatenation of no suffix of the chunk
sequence — the chunk was cut in the middle, not discarded whole. -/
theorem scrollback_not_whole_chunks :
    ¬ ∃ tail : List Str, tail <:+ [bigChunk] ∧
      getBuffer
        (applyAppends ([bigChunk].map fun c => (getWindowKey "s".data 0, c))
          emptyBuffers)
        "s".data 0 = tail.flatten := by
  rintro ⟨tail, hsuf, heq⟩
  have hlen := bigChunk_buffer_length
  rw [heq] at hlen
  rcases List.suffix_cons_iff.mp hsuf with h | h
  · subst h
    simp only [List.flatten_cons, List.flatten_nil, List.append_nil] at hlen
    rw [bigChunk_length] at hlen
    exact absurd hlen (by norm_num)
  · have hnil : tail = [] := List.suffix_nil.mp h
    subst hnil
    simp only [List.flatten_nil, List.length_nil] at hlen
    exact absurd hlen (by norm_num)

/-- C4 (amended): overflow is trimmed at byte granularity — after any
sequence of chunks appended to one window, the retained buffer is exactly
the last `min total SB_CAP` bytes of the concatenated byte stream
(`slice(-maxBufferSize)`), which may cut the oldest surviving chunk. -/
theorem scrollback_is_byte_suffix (sessionName : Str) (windowIndex : Nat)
    (chunks : List Str) :
    getBuffer
      (applyAppends
        (chunks.map fun c => (getWindowKey sessionName windowIndex, c))
        emptyBuffers)
      sessionName windowIndex
      = jsSliceLast maxBufferSize chunks.flatten := by
  show applyAppends _ emptyBuffers (getWindowKey sessionName windowIndex) = _
  rw [applyAppends_fixed_key]
  have h0 : emptyBuffers (getWindowKey sessionName windowIndex)
      = jsSliceLast maxBufferSize [] := rfl
  rw [h0, foldl_appendOne_jsSliceLast]
  rfl

/-! ## Claim theorems: output fan-out error handling -/

/-- A handler behaviour where handler 1 throws on every chunk. -/
def behThrow1 : Nat → Str → Bool := fun h _ => h = 1

/-- C5 counterexample: with handlers `[1, 2]` and handler 1 throwing, the
dispatch still invokes both handlers and handler 1 is NOT removed from the
handler set, contradicting the claimed removal of the erroring
subscriber. -/
theorem handlerError_not_removed :
    (onDataDispatch behThrow1 ⟨[1, 2], []⟩ "x".data).2 = [(1, true), (2, false)] ∧
    (onDataDispatch behThrow1 ⟨[1, 2], []⟩ "x".data).1.handlers = [1, 2] ∧
    ¬ (1 ∉ (onDataDispatch behThrow1 ⟨[1, 2], []⟩ "x".data).1.handlers) := by
  decide

/-- C5 (amended): a throwing handler is caught and only logged: the
handler set is unchanged (nobody is removed), the chunk is still appended
to the scrollback buffer, and every handler of the set — the throwing one
included — is invoked with the chunk. -/
theorem handlerError_caught (beh : Nat → Str → Bool) (st : WindowAttachState)
    (data : Str) (h : Nat) (hmem : h ∈ st.handlers) :
    (onDataDispatch beh st data).1.handlers = st.handlers ∧
    (onDataDispatch beh st data).1.buffer = appendOne st.buffer data ∧
    (h, beh h data) ∈ (onDataDispatch beh st data).2 := by
  refine ⟨rfl, rfl, ?_⟩
  show (h, beh h data) ∈ st.handlers.map fun q => (q, beh q data)
  exact List.mem_map.mpr ⟨h, hmem, rfl⟩

/-- Witness for C5 (amended) at the concrete throwing behaviour. -/
theorem handlerError_caught_witness :
    (onDataDispatch behThrow1 ⟨[1, 2], []⟩ "y".data).1.handlers = [1, 2] ∧
    (onDataDispatch behThrow1 ⟨[1, 2], []⟩ "y".data).1.buffer
      = appendOne [] "y".data ∧
    (1, behThrow1 1 "y".data) ∈ (onDataDispatch behThrow1 ⟨[1, 2], []⟩ "y".data).2 :=
  handlerError_caught behThrow1 ⟨[1, 2], []⟩ "y".data 1 (by decide)

/-! ## Claim theorems: session creation race -/

/-- C6: when `tmux new-session` throws after the existence check, the
session is joined (`isNew = false`) exactly when the error message
contains `duplicate session`; any other create failure is re-raised. -/
theorem getOrCreateSession_duplicate_race (env : TmuxEnv) (p msg : Str)
    (hav : env.tmuxAvailable = true)
    (hses : sessionExists env (generateSessionName p) = false)
    (hcwd : env.cwdExists = true)
    (herr : env.createError = some msg) :
    (strIncludes msg "duplicate session".data = true →
      getOrCreateSession env p = .ok (generateSessionName p, false)) ∧
    (strIncludes msg "duplicate session".data = false →
      getOrCreateSession env p
        = .error ("Failed to create tmux session: ".data ++ msg)) := by
  constructor <;> intro hdup <;>
    simp [getOrCreateSession, hav, hses, hcwd, herr, hdup]

/-- Witness for C6: a concrete environment where the create throws
`duplicate session`, and one where it throws something else. -/
theorem getOrCreateSession_duplicate_race_witness :
    getOrCreateSession ⟨true, [], true, some "duplicate session: m".data⟩ "p".data
      = .ok (generateSessionName "p".data, false) :=
  (getOrCreateSession_duplicate_race
    ⟨true, [], true, some "duplicate session: m".data⟩ "p".data
    "duplicate session: m".data rfl (by decide) rfl rfl).1 (by decide)

/-! ## Manager state lemmas: detach timers -/

theorem detach_noop {st : MgrState} {s : Str} {w : Nat}
    (h : st.attachedWindows (getWindowKey s w) = none) :
    detachFromWindow st s w = st := by
  simp only [detachFromWindow, h]

theorem detach_attached {st : MgrState} {s : Str} {w : Nat}
    {att : AttachedWindow}
    (h : st.attachedWindows (getWindowKey s w) = some att) :
    detachFromWindow st s w
      = { st with
            ptyWrites := st.ptyWrites ++ [(att.ptyId, ['\x02', 'd'])],
            detachTimers := st.detachTimers ++ [(getWindowKey s w, att.ptyId)] } := by
  simp only [detachFromWindow, h]

theorem fireDetachTimer_removes (st : MgrState) (t : Str × Nat)
    (hmem : t ∈ st.detachTimers) :
    (fireDetachTimer st t).attachedWindows t.1 = none := by
  unfold fireDetachTimer
  rw [if_pos hmem]
  cases hcase : st.attachedWindows t.1 with
  | none => simp only [hcase]
  | some a =>
    simp only [hcase]
    simp [delK]

/-! ## Claim theorems: resize, detach, attach -/

/-- C7 counterexample: `resizeWindow` with `cols = rows = 0` on an
attached window does not raise: it returns `ok` and records the
dimensions `(0, 0)`, so the claimed `ErrInvalid` rejection and the
`Cols >= 1 ∧ Rows >= 1` invariant both fail. -/
theorem resizeWindow_accepts_zero :
    (match resizeWindow demoMgr "s".data 0 0 0 with
      | .ok st2 => (st2.attachedWindows (getWindowKey "s".data 0)).map
          fun a => (a.cols, a.rows)
      | .error _ => none) = some (0, 0) := by decide

/-- C7 (amended): `resizeWindow` performs no validation of the
dimensions: when the window is attached it succeeds for every `cols` and
`rows` — including values below 1 — and records them verbatim; the only
error it raises itself is the not-attached one. -/
theorem resizeWindow_no_validation (st : MgrState) (s : Str) (w : Nat)
    (c r : Int) :
    (st.attachedWindows (getWindowKey s w) = none →
      resizeWindow st s w c r
        = .error ("Not attached to ".data ++ getWindowKey s w)) ∧
    (∀ att, st.attachedWindows (getWindowKey s w) = some att →
      resizeWindow st s w c r
        = .ok { st with
                  attachedWindows := setK st.attachedWindows (getWindowKey s w)
                    { att with cols := c, rows := r } }) := by
  constructor
  · intro h
    simp only [resizeWindow, h]
  · intro att h
    simp only [resizeWindow, h]

/-- Witness for C7 (amended): resizing the attached demo window to
`(0, 0)` succeeds and stores `(0, 0)`. -/
theorem resizeWindow_no_validation_witness :
    resizeWindow demoMgr "s".data 0 0 0
      = .ok { demoMgr with
                attachedWindows := setK demoMgr.attachedWindows
                  (getWindowKey "s".data 0)
                  { (⟨5, 80, 24⟩ : AttachedWindow) with cols := 0, rows := 0 } } :=
  (resizeWindow_no_validation demoMgr "s".data 0 0 0).2 ⟨5, 80, 24⟩ (by decide)

/-- C9 counterexample: a second `detachFromWindow` issued while the
window is still attached (before the 500 ms timer has run) writes the
detach keystrokes `\x02 d` to the PTY a second time, so the observable
state after two detaches differs from the state after one. -/
theorem detach_twice_not_idempotent :
    (detachFromWindow (detachFromWindow demoMgr "s".data 0) "s".data 0).ptyWrites
      ≠ (detachFromWindow demoMgr "s".data 0).ptyWrites := by decide

/-- C9 (amended): `detachFromWindow` on a window that is not attached
changes nothing and does not raise; consequently, once the first detach's
timer callback has run (removing the attachment), a further detach is a
no-op — detach-twice equals detach-once provided the first detach
completed in between. -/
theorem detachFromWindow_idempotent (st : MgrState) (s : Str) (w : Nat) :
    (st.attachedWindows (getWindowKey s w) = none →
      detachFromWindow st s w = st) ∧
    (∀ att, st.attachedWindows (getWindowKey s w) = some att →
      detachFromWindow
        (fireDetachTimer (detachFromWindow st s w) (getWindowKey s w, att.ptyId))
        s w
        = fireDetachTimer (detachFromWindow st s w)
            (getWindowKey s w, att.ptyId)) := by
  constructor
  · exact detach_noop
  · intro att h
    apply detach_noop
    have hmem : ((getWindowKey s w, att.ptyId) : Str × Nat)
        ∈ (detachFromWindow st s w).detachTimers := by
      rw [detach_attached h]
      simp
    exact fireDetachTimer_removes (detachFromWindow st s w)
      (getWindowKey s w, att.ptyId) hmem

/-- Witness for C9 (amended) on the demo state. -/
theorem detachFromWindow_idempotent_witness :
    detachFromWindow
      (fireDetachTimer (detachFromWindow demoMgr "s".data 0)
        (getWindowKey "s".data 0, 5)) "s".data 0
      = fireDetachTimer (detachFromWindow demoMgr "s".data 0)
        (getWindowKey "s".data 0, 5) :=
  (detachFromWindow_idempotent demoMgr "s".data 0).2 ⟨5, 80, 24⟩ (by decide)

/-- C10: `attachToWindow` on a window key that already has a live
attachment returns the existing attachment record and leaves the whole
manager state unchanged: no second PTY is spawned (`nextPty` is not
consumed) and the window's handler set and output buffer are not reset. -/
theorem attachToWindow_already_attached (env : AttachEnv) (st : MgrState)
    (s : Str) (w : Nat) (oc orr : Option Int)
    (hav : env.tmuxAvailable = true)
    (hses : env.sessionFound = true)
    (hwin : env.windowFound = true)
    (existing : AttachedWindow)
    (h : st.attachedWindows (getWindowKey s w) = some existing) :
    attachToWindow env st s w oc orr = .ok (st, existing) := by
  simp [attachToWindow, hav, hses, hwin, h]

/-- Witness for C10 on the demo state. -/
theorem attachToWindow_already_attached_witness :
    attachToWindow ⟨true, true, true⟩ demoMgr "s".data 0 none none
      = .ok (demoMgr, ⟨5, 80, 24⟩) :=
  attachToWindow_already_attached ⟨true, true, true⟩ demoMgr "s".data 0
    none none rfl rfl rfl ⟨5, 80, 24⟩ (by decide)

end TmuxMgr
